import Mathlib

/-
Verification of the Varlytics simulation and portfolio-risk engine.

Shallow embedding conventions:
* Python floats are idealised as exact rationals (ℚ); the geometric path
  simulator, which applies np.exp, is embedded over ℝ with Real.exp.
* External collaborators are abstracted: the yfinance data fetch becomes an
  environment function String → Option History; the arch model optimizer
  becomes an oracle; scipy.stats.norm.ppf and np.sqrt enter as explicit
  parameters constrained by hypotheses (z < 0 for confidence > 1/2,
  sd > 0 for np.sqrt of a positive horizon, sigma the non-negative square
  root of the sample variance).
* Thread-pool completion order (concurrent.futures.as_completed) is
  modelled as an arbitrary permutation of the submitted task list.
-/

namespace Varlytics

/-! ## Path simulation (optimized_batch_service._simulate_paths,
    monte_carlo_simulation_service.run_monte_carlo_simulation) -/

/-- Trading-day fraction dt = 1 / 252 used by every simulator. -/
noncomputable def dt : ℝ := 1 / 252

/-- One geometric step return: np.exp(drift + diffusion * shock) with
drift = (mean - 0.5 * vol ** 2) * dt and diffusion = vol * np.sqrt(dt). -/
noncomputable def stepReturn (mean vol z : ℝ) : ℝ :=
  Real.exp ((mean - 0.5 * vol ^ 2) * dt + vol * Real.sqrt dt * z)

/-- Price of path s at day d: last_price * np.cumprod(returns, axis=0),
the running product of step returns scaled by the last observed price. -/
noncomputable def priceAt (lastPrice : ℝ) (mean vol : ℕ → ℝ) (z : ℕ → ℕ → ℝ)
    (s : ℕ) : ℕ → ℝ
  | 0 => lastPrice * stepReturn (mean 0) (vol 0) (z 0 s)
  | d + 1 => priceAt lastPrice mean vol z s d *
      stepReturn (mean (d + 1)) (vol (d + 1)) (z (d + 1) s)

/-- Full simulated price matrix, day-major: row d lists the prices of all
paths at day d (shape num_days × num_simulations). -/
noncomputable def simulatePaths (lastPrice : ℝ) (mean vol : ℕ → ℝ)
    (z : ℕ → ℕ → ℝ) (numDays numSims : ℕ) : List (List ℝ) :=
  (List.range numDays).map fun d =>
    (List.range numSims).map fun s => priceAt lastPrice mean vol z s d

/-! ## Terminal statistics (optimized_batch_service._calculate_statistics) -/

/-- Minimum of a list, np.min on a non-empty array (0 on the empty list). -/
def listMin : List ℚ → ℚ
  | [] => 0
  | x :: xs => xs.foldl min x

/-- Maximum of a list, np.max on a non-empty array (0 on the empty list). -/
def listMax : List ℚ → ℚ
  | [] => 0
  | x :: xs => xs.foldl max x

/-- Summary statistics of the terminal-price row.  The service additionally
rounds the fields for presentation (2 resp. 4 decimal places); the rounding
step is omitted here and the unrounded quantities are modelled. -/
structure Stats where
  mean : ℚ
  min : ℚ
  max : ℚ
  pMin : ℚ
  pMax : ℚ
deriving DecidableEq, Repr

/-- Embedding of _calculate_statistics: mean / min / max of the terminal
prices, and the tail fractions P(min) and P(max).  The divisor is the
batch attribute num_simulations exactly as in the source (the callers all
pass a vector of that length). -/
def calculateStatistics (finalPrices : List ℚ) (numSims : ℕ) : Stats :=
  let minPrice := listMin finalPrices
  let maxPrice := listMax finalPrices
  { mean := finalPrices.sum / (finalPrices.length : ℚ)
    min := minPrice
    max := maxPrice
    pMin := ((finalPrices.countP fun x => decide (x ≤ minPrice * (21 / 20))) : ℚ) /
      (numSims : ℚ)
    pMax := ((finalPrices.countP fun x => decide (x ≥ maxPrice * (19 / 20))) : ℚ) /
      (numSims : ℚ) }

/-! ## Portfolio weights (portfolio_service.calculate_portfolio_metrics,
    steps 1-2) -/

/-- One holding as submitted to the portfolio endpoint. -/
structure PHolding where
  symbol : String
  quantity : ℚ
deriving DecidableEq, Repr

/-- Per-holding data after the fetch stage: symbol, quantity,
current price (last close) and the close-price history. -/
structure StockEntry where
  symbol : String
  quantity : ℚ
  price : ℚ
  closes : List ℚ
deriving DecidableEq, Repr

/-- Market value of one position: quantity * current_price. -/
def positionValue (e : StockEntry) : ℚ := e.quantity * e.price

/-- total_value = sum over holdings of quantity * current_price. -/
def totalValue (sd : List StockEntry) : ℚ := (sd.map positionValue).sum

/-- Value weights: each position value divided by the total value. -/
def portfolioWeights (sd : List StockEntry) : List ℚ :=
  sd.map fun e => positionValue e / totalValue sd

/-! ## Portfolio fetch stage (portfolio_service.fetch_stock_data loop).
    fetch abstracts fetch_stock_data for one symbol; the list argument is
    the as_completed completion order of the submitted futures. -/

/-- Error text raised when one holding's fetch fails. -/
def fetchErrorMsg (symbol msg : String) : String :=
  "Error fetching data for " ++ symbol ++ ": " ++ msg

/-- Collection loop over as_completed: the first failed future raises a
ValueError naming the holding's symbol, otherwise all entries are kept. -/
def collectStockData (fetch : String → Except String (ℚ × List ℚ)) :
    List PHolding → Except String (List StockEntry)
  | [] => Except.ok []
  | h :: rest =>
    match fetch h.symbol with
    | Except.error e => Except.error (fetchErrorMsg h.symbol e)
    | Except.ok d =>
      match collectStockData fetch rest with
      | Except.error e2 => Except.error e2
      | Except.ok tl => Except.ok (⟨h.symbol, h.quantity, d.1, d.2⟩ :: tl)

/-! ## Portfolio return series and the four VaR estimators
    (portfolio_service.calculate_portfolio_metrics, steps 3-5) -/

/-- Simple returns, pandas Close.pct_change().dropna(). -/
def pctChanges (closes : List ℚ) : List ℚ :=
  List.zipWith (fun a b => b / a - 1) closes closes.tail

/-- Arithmetic mean of a series, pandas Series.mean (0 on empty input). -/
def sampleMean (l : List ℚ) : ℚ := l.sum / (l.length : ℚ)

/-- Sample variance with ddof = 1, the square of pandas Series.std. -/
def sampleVarDdof1 (l : List ℚ) : ℚ :=
  (l.map fun x => (x - sampleMean l) ^ 2).sum / ((l.length : ℚ) - 1)

/-- Ascending sort of the return series, np.sort. -/
def sortedReturns (l : List ℚ) : List ℚ := l.insertionSort (· ≤ ·)

/-- Historical VaR index: int((1 - confidence_level) * N), which for a
non-negative argument is the floor. -/
def varIndex (cl : ℚ) (n : ℕ) : ℕ := (Int.floor ((1 - cl) * (n : ℚ))).toNat

/-- Variance-covariance VaR: total_value * (mean + z * std) * sqrt(num_days);
z stands for scipy.stats.norm.ppf(1 - confidence_level) and sd for
np.sqrt(num_days). -/
def varParametric (total mu sigma z sd : ℚ) : ℚ := total * (mu + z * sigma) * sd

/-- Historical simulation VaR:
total_value * sorted_returns[var_index] * sqrt(num_days). -/
def varHistorical (total : ℚ) (returns : List ℚ) (cl sd : ℚ) : ℚ :=
  total * (sortedReturns returns).getD (varIndex cl returns.length) 0 * sd

/-- Expected shortfall: total value times the mean of the returns lying at
or below the historical VaR threshold, times sqrt(num_days). -/
def expectedShortfall (total : ℚ) (returns : List ℚ) (cl sd : ℚ) : ℚ :=
  let threshold := (sortedReturns returns).getD (varIndex cl returns.length) 0
  let tail := returns.filter fun x => decide (x ≤ threshold)
  total * (tail.sum / (tail.length : ℚ)) * sd

/-- Linear-interpolation percentile, np.percentile(a, q): with
h = (q / 100) * (n - 1), interpolate between the sorted entries at
positions floor h and floor h + 1. -/
def percentile (l : List ℚ) (q : ℚ) : ℚ :=
  let s := sortedReturns l
  let h := q / 100 * ((l.length : ℚ) - 1)
  let i := (Int.floor h).toNat
  let a := s.getD i 0
  let b := s.getD (i + 1) a
  a + (h - (i : ℚ)) * (b - a)

/-- Monte-Carlo VaR: draws np.random.normal(mean, std, n) * sqrt(num_days)
are modelled as (mu + sigma * g) * sd for the supplied standard-normal
stream g; the result is total_value times their (1 - cl) * 100 percentile. -/
def varMonteCarlo (total mu sigma sd : ℚ) (shocks : List ℚ) (cl : ℚ) : ℚ :=
  let draws := shocks.map fun g => (mu + sigma * g) * sd
  total * percentile draws ((1 - cl) * 100)

/-- Weighted portfolio return at one aligned observation: the sum over
holdings of weight * return.  Pandas aligns the per-symbol series on their
date index and drops incomplete rows; that alignment is abstracted here as
positional alignment over the common length. -/
def portfolioReturnAt (entries : List (ℚ × List ℚ)) (t : ℕ) : ℚ :=
  (entries.map fun e => e.1 * e.2.getD t 0).sum

/-- Aligned weighted portfolio return series over the common horizon. -/
def portfolioReturns (entries : List (ℚ × List ℚ)) : List ℚ :=
  (List.range ((entries.map fun e => e.2.length).foldr min 0)).map
    (portfolioReturnAt entries)

/-- Portfolio report restricted to the fields the verified claims touch. -/
structure Report where
  totalValue : ℚ
  weights : List (String × ℚ)
  varCovariance : ℚ
  varHist : ℚ
  varMC : ℚ
  shortfall : ℚ
deriving DecidableEq, Repr

/-- Embedding of calculate_portfolio_metrics.  fetch abstracts the
per-symbol data fetch; order is the as_completed completion order of the
fetch futures (a permutation of holdings); z stands for
scipy.stats.norm.ppf(1 - confidence_level), sd for np.sqrt(num_days) and
shocks for the Monte-Carlo standard-normal stream. -/
def calculatePortfolioMetrics (fetch : String → Except String (ℚ × List ℚ))
    (holdings order : List PHolding) (cl z sd : ℚ) (shocks : List ℚ) :
    Except String Report :=
  if holdings = [] then Except.error ("Holdings list cannot be empty")
  else
    match collectStockData fetch order with
    | Except.error e => Except.error e
    | Except.ok sd_data =>
      let total := totalValue sd_data
      let weights := portfolioWeights sd_data
      let rets := portfolioReturns (List.zipWith
        (fun w e => (w, pctChanges e.closes)) weights sd_data)
      if rets.length < 100 then
        Except.error
          ("Insufficient historical data for analysis (minimum 100 days required)")
      else
        let mu := sampleMean rets
        Except.ok
          { totalValue := total
            weights := List.zipWith (fun e w => (e.symbol, w)) sd_data weights
            varCovariance := varParametric total mu (sampleVarDdof1 rets) z sd
            varHist := varHistorical total rets cl sd
            varMC := varMonteCarlo total mu (sampleVarDdof1 rets) sd shocks cl
            shortfall := expectedShortfall total rets cl sd }

/-! ## Boundary validation (api/simulations.py Query bounds,
    api/portfolio.py PortfolioAnalysisRequest Field bounds) -/

/-- FastAPI Query validation of the two simulation endpoints:
num_simulations with ge=100, le=10000 and num_days with ge=1, le=1000. -/
def simEndpointAccepts (numSimulations numDays : ℕ) : Bool :=
  100 ≤ numSimulations && numSimulations ≤ 10000 &&
    1 ≤ numDays && numDays ≤ 1000

/-- Pydantic Field validation of PortfolioAnalysisRequest:
num_simulations in [1000, 100000], num_days in [1, 252] and
confidence_level in [0.90, 0.999]. -/
def portfolioRequestAccepts (numSimulations numDays : ℕ)
    (confidenceLevel : ℚ) : Bool :=
  1000 ≤ numSimulations && numSimulations ≤ 100000 &&
    1 ≤ numDays && numDays ≤ 252 &&
    9 / 10 ≤ confidenceLevel && confidenceLevel ≤ 999 / 1000

/-! ## Batch orchestration over the 22-model catalogue
    (simulations_service.run_all_simulations,
    optimized_batch_service.run_all_simulations_optimized) -/

/-- The 22 fixed catalogue names, in the order of the task dictionaries of
both orchestrators. -/
def catalogNames : List String :=
  ["GARCH-N", "GARCH-T", "GARCH-GED",
   "GARCH-SKEWED-N", "GARCH-SKEWED-T", "GARCH-SKEWED-GED",
   "EGARCH-N", "EGARCH-T", "EGARCH-GED",
   "EGARCH-SKEWED-N", "EGARCH-SKEWED-T", "EGARCH-SKEWED-GED",
   "GJR-GARCH-N", "GJR-GARCH-T", "GJR-GARCH-GED",
   "GJR-GARCH-SKEWED-N", "GJR-GARCH-SKEWED-T", "GJR-GARCH-SKEWED-GED",
   "HISTORICAL", "MONTE-CARLO", "RISK-METRICS", "SIMPLE-VARIANCE"]

/-- Value stored under one catalogue name in the combined result map:
either the model's statistics or the error-shaped object
with the captured exception message. -/
inductive SimOutcome where
  | ok (s : Stats)
  | err (msg : String)
deriving DecidableEq, Repr

/-- Wrapping of one task's outcome performed by both orchestrators'
collection loops (try / except around future.result). -/
def toOutcome : Except String Stats → SimOutcome
  | Except.ok s => SimOutcome.ok s
  | Except.error e => SimOutcome.err e

/-- Result map assembled by iterating as_completed in the given completion
order and storing each task's value under its catalogue name. -/
def gatherResults (order : List String)
    (outcome : String → Except String Stats) : List (String × SimOutcome) :=
  order.map fun n => (n, toOutcome (outcome n))

/-! ## Symbol resolution and the two data-fetch strategies
    (utils/index_utils.py; _fetch_data of the optimized batch versus the
    suffix-only fetch of the standalone EGARCH-GED service) -/

/-- INDIAN_INDICES from utils/index_utils.py, reduced to the
alias-to-Yahoo-symbol mapping the fetch paths consume. -/
def indianIndices : List (String × String) :=
  [("NIFTY", "^NSEI"), ("NIFTY50", "^NSEI"), ("NIFTY_50", "^NSEI"),
   ("^NSEI", "^NSEI"),
   ("BANKNIFTY", "^NSEBANK"), ("BANK_NIFTY", "^NSEBANK"),
   ("NIFTYBANK", "^NSEBANK"), ("^NSEBANK", "^NSEBANK"),
   ("NIFTYIT", "^CNXIT"), ("NIFTY_IT", "^CNXIT"), ("^CNXIT", "^CNXIT"),
   ("NIFTYPHARMA", "^CNXPHARMA"), ("NIFTY_PHARMA", "^CNXPHARMA"),
   ("^CNXPHARMA", "^CNXPHARMA"),
   ("NIFTYAUTO", "^CNXAUTO"), ("NIFTY_AUTO", "^CNXAUTO"),
   ("^CNXAUTO", "^CNXAUTO"),
   ("NIFTYFMCG", "^CNXFMCG"), ("NIFTY_FMCG", "^CNXFMCG"),
   ("^CNXFMCG", "^CNXFMCG"),
   ("NIFTYMETAL", "^CNXMETAL"), ("NIFTY_METAL", "^CNXMETAL"),
   ("^CNXMETAL", "^CNXMETAL"),
   ("NIFTYREALTY", "^CNXREALTY"), ("NIFTY_REALTY", "^CNXREALTY"),
   ("^CNXREALTY", "^CNXREALTY"),
   ("NIFTYENERGY", "^CNXENERGY"), ("NIFTY_ENERGY", "^CNXENERGY"),
   ("^CNXENERGY", "^CNXENERGY"),
   ("NIFTYINFRA", "^CNXINFRA"), ("NIFTY_INFRA", "^CNXINFRA"),
   ("^CNXINFRA", "^CNXINFRA"),
   ("NIFTYPSE", "^CNXPSE"), ("NIFTY_PSE", "^CNXPSE"),
   ("^CNXPSE", "^CNXPSE"),
   ("NIFTYMIDCAP50", "^NSEMDCP50"), ("NIFTY_MIDCAP_50", "^NSEMDCP50"),
   ("^NSEMDCP50", "^NSEMDCP50"),
   ("NIFTYMIDCAP100", "^NSEMDCP100"), ("NIFTY_MIDCAP_100", "^NSEMDCP100"),
   ("NIFTYSMALLCAP50", "NIFTY_SMALLCAP_50.NS"),
   ("NIFTY_SMALLCAP_50", "NIFTY_SMALLCAP_50.NS"),
   ("NIFTYSMALLCAP100", "NIFTY_SMALLCAP_100.NS"),
   ("NIFTY_SMALLCAP_100", "NIFTY_SMALLCAP_100.NS"),
   ("NIFTYNEXT50", "^NSMIDCP"), ("NIFTY_NEXT_50", "^NSMIDCP"),
   ("^NSMIDCP", "^NSMIDCP"),
   ("NIFTY100", "^CNX100"), ("NIFTY_100", "^CNX100"),
   ("^CNX100", "^CNX100"),
   ("NIFTY200", "^CNX200"), ("NIFTY_200", "^CNX200"),
   ("^CNX200", "^CNX200"),
   ("NIFTY500", "^CNX500"), ("NIFTY_500", "^CNX500"),
   ("^CNX500", "^CNX500"),
   ("SENSEX", "^BSESN"), ("^BSESN", "^BSESN"),
   ("BSE100", "^BSE100"), ("BSE_100", "^BSE100"), ("^BSE100", "^BSE100"),
   ("BSE200", "^BSE200"), ("BSE_200", "^BSE200"), ("^BSE200", "^BSE200"),
   ("BSE500", "^BSE500"), ("BSE_500", "^BSE500"), ("^BSE500", "^BSE500"),
   ("BSEMIDCAP", "BSE-MIDCAP.BO"), ("BSE_MIDCAP", "BSE-MIDCAP.BO"),
   ("BSESMALLCAP", "BSE-SMLCAP.BO"), ("BSE_SMALLCAP", "BSE-SMLCAP.BO"),
   ("BSEBANKEX", "^BSESN"), ("BSE_BANKEX", "^BSESN")]

/-- ASCII upper-casing of a symbol, Python str.upper (structural over the
character list so that concrete symbols evaluate inside the kernel). -/
def toUpperStr (s : String) : String := ⟨s.data.map Char.toUpper⟩

/-- Whitespace stripping at both ends, Python str.strip. -/
def stripStr (s : String) : String :=
  ⟨(((s.data.dropWhile Char.isWhitespace).reverse).dropWhile
      Char.isWhitespace).reverse⟩

/-- Normalised lookup key: symbol.upper().strip(). -/
def normalizeKey (symbol : String) : String := stripStr (toUpperStr symbol)

/-- is_index: membership of the upper-cased, stripped symbol in the table. -/
def isIndex (symbol : String) : Bool :=
  (indianIndices.lookup (normalizeKey symbol)).isSome

/-- get_yahoo_symbol: table lookup of the upper-cased, stripped symbol. -/
def getYahooSymbol (symbol : String) : Option String :=
  indianIndices.lookup (normalizeKey symbol)

/-- Close-price history returned by the data collaborator. -/
abbrev History := List ℚ

/-- Market-data environment: yf.Ticker(s).history(period="5y"), with none
standing for an empty frame. -/
structure FetchEnv where
  history : String → Option History

/-- Error text raised when no usable history is found. -/
def noDataMsg (symbol : String) : String :=
  "No historical data found for symbol '" ++ symbol ++ "'."

/-- NSE/BSE suffix-fallback fetch: try symbol.NS first, then symbol.BO. -/
def fetchSuffixOnly (env : FetchEnv) (symbol : String) :
    Except String History :=
  match env.history (symbol ++ ".NS") with
  | some h => Except.ok h
  | none =>
    match env.history (symbol ++ ".BO") with
    | some h => Except.ok h
    | none => Except.error (noDataMsg symbol)

/-- Index-aware fetch used by the optimized batch _fetch_data (and by the
standalone HISTORICAL, MONTE-CARLO and RISK-METRICS services): mapped Yahoo
symbol for an index, suffix fallback otherwise. -/
def fetchIndexAware (env : FetchEnv) (symbol : String) :
    Except String History :=
  if isIndex symbol then
    match getYahooSymbol symbol with
    | some ys =>
      match env.history ys with
      | some h => Except.ok h
      | none => Except.error (noDataMsg symbol)
    | none => Except.error (noDataMsg symbol)
  else fetchSuffixOnly env symbol

/-- Numeric kernel of one catalogue entry: catalogue name and fetched
history to terminal statistics.  The same random stream is folded into the
oracle, so a fixed oracle models a fixed seed.  For each entry the two
execution strategies run the same computation on the fetched data (verified
by inspection for the services present under src/), hence one shared
oracle serves both sides. -/
structure ModelOracle where
  compute : String → History → Stats

/-- True exactly for the catalogue entries whose standalone service fetches
only via the NSE/BSE suffixes.  From the source this holds for EGARCH-GED
(e_garch_ged_simulation_service.py has no is_index branch), while the
standalone HISTORICAL, MONTE-CARLO and RISK-METRICS services are
index-aware.  Modelled from the spec: the remaining 18 standalone
per-model services are not under src/; the spec calls the non-optimized
variant functionally identical to the optimized one, so they are modelled
with the index-aware fetch. -/
def standaloneUsesSuffixOnly (name : String) : Bool := name == "EGARCH-GED"

/-- Data fetch performed by the standalone service of one catalogue
entry. -/
def standaloneFetch (env : FetchEnv) (symbol name : String) :
    Except String History :=
  if standaloneUsesSuffixOnly name then fetchSuffixOnly env symbol
  else fetchIndexAware env symbol

/-- Outcome of one task given its fetch result: exceptions are captured as
error-shaped values by the orchestrator. -/
def runEntryOutcome (fetchRes : Except String History) (M : ModelOracle)
    (name : String) : SimOutcome :=
  match fetchRes with
  | Except.error e => SimOutcome.err e
  | Except.ok h => SimOutcome.ok (M.compute name h)

/-- Non-optimized orchestrator (run_all_simulations): every catalogue entry
fetches its own data through its standalone service; per-entry failures are
captured in the map. -/
def runAllStandalone (env : FetchEnv) (M : ModelOracle) (symbol : String) :
    String → Option SimOutcome :=
  fun name =>
    if name ∈ catalogNames then
      some (runEntryOutcome (standaloneFetch env symbol name) M name)
    else none

/-- Optimized orchestrator (run_all_simulations_ultra_optimized): one shared
index-aware fetch; a fetch failure raises out of the whole batch, otherwise
every entry computes on the shared history. -/
def runAllOptimizedMap (env : FetchEnv) (M : ModelOracle) (symbol : String) :
    Except String (String → Option SimOutcome) :=
  match fetchIndexAware env symbol with
  | Except.error e => Except.error e
  | Except.ok h =>
    Except.ok fun name =>
      if name ∈ catalogNames then some (SimOutcome.ok (M.compute name h))
      else none

/-! ## Model-fit cache (optimized_batch_service._fit_model) -/

/-- Cache key f-string of _fit_model: vol, dist and leverage order. -/
def fitKey (vol dist : String) (o : ℕ) : String :=
  vol ++ "_" ++ dist ++ "_" ++ toString o

/-- Per-batch fitted-model cache plus a count of optimizer runs; the model
type is abstract. -/
structure FitState (μ : Type) where
  cache : List (String × μ)
  fitCount : ℕ

/-- Embedding of _fit_model: a cached key returns the stored object with no
new optimizer run; a miss runs the optimizer oracle once and stores the
result. -/
def fitModel {μ : Type} (oracle : String → μ) (key : String)
    (st : FitState μ) : μ × FitState μ :=
  match st.cache.lookup key with
  | some m => (m, st)
  | none =>
    (oracle key, ⟨(key, oracle key) :: st.cache, st.fitCount + 1⟩)

/-- Fit keys requested by the 18 parametric catalogue entries in task
order: the six skewed variants call _fit_model with the same arguments as
their plain counterparts, and the GJR entries use vol GARCH with o = 1. -/
def batchFitKeys : List String :=
  [fitKey ("GARCH") ("normal") 0, fitKey ("GARCH") ("t") 0, fitKey ("GARCH") ("ged") 0,
   fitKey ("GARCH") ("normal") 0, fitKey ("GARCH") ("t") 0, fitKey ("GARCH") ("ged") 0,
   fitKey ("EGARCH") ("normal") 0, fitKey ("EGARCH") ("t") 0, fitKey ("EGARCH") ("ged") 0,
   fitKey ("EGARCH") ("normal") 0, fitKey ("EGARCH") ("t") 0, fitKey ("EGARCH") ("ged") 0,
   fitKey ("GARCH") ("normal") 1, fitKey ("GARCH") ("t") 1, fitKey ("GARCH") ("ged") 1,
   fitKey ("GARCH") ("normal") 1, fitKey ("GARCH") ("t") 1, fitKey ("GARCH") ("ged") 1]

/-- State after one batch has fitted all 18 parametric catalogue entries
starting from the empty cache. -/
def runBatchFits {μ : Type} (oracle : String → μ) : FitState μ :=
  batchFitKeys.foldl (fun st k => (fitModel oracle k st).2) ⟨[], 0⟩

/-- Number of optimizer runs a key sequence causes given the set of keys
already cached: a key not seen before counts once. -/
def distinctNewCount (domain : List String) : List String → ℕ
  | [] => 0
  | k :: ks =>
    if k ∈ domain then distinctNewCount domain ks
    else distinctNewCount (k :: domain) ks + 1

/-- Concrete environment for the index-symbol scenario: Yahoo has data for
the Nifty index symbol only, and no NIFTY50.NS or NIFTY50.BO ticker
exists. -/
def counterEnvIndex : FetchEnv :=
  ⟨fun s => if s = ("^NSEI") then some [100] else none⟩

/-- Concrete environment for the plain-stock scenario: only TCS.NS has
data. -/
def counterEnvStock : FetchEnv :=
  ⟨fun s => if s = ("TCS.NS") then some [100] else none⟩

/-- Fixed statistics value for concrete oracle instances. -/
def constStats : Stats := ⟨0, 0, 0, 0, 0⟩

/-- Oracle returning the fixed statistics for every entry and history. -/
def constOracle : ModelOracle := ⟨fun _ _ => constStats⟩

/-- Bundled conclusion of the statistics-extractor claim: the two tail
fractions are the stated counting quotients, both lie in [0, 1], and each
dominates the fraction of exactly-extreme terminal prices. -/
def StatisticsSpecHolds (prices : List ℚ) (numSims : ℕ) : Prop :=
  (calculateStatistics prices numSims).pMin =
    ((prices.countP fun x => decide (x ≤ listMin prices * (21 / 20))) : ℚ) /
      (prices.length : ℚ) ∧
  (calculateStatistics prices numSims).pMax =
    ((prices.countP fun x => decide (x ≥ listMax prices * (19 / 20))) : ℚ) /
      (prices.length : ℚ) ∧
  0 ≤ (calculateStatistics prices numSims).pMin ∧
  (calculateStatistics prices numSims).pMin ≤ 1 ∧
  0 ≤ (calculateStatistics prices numSims).pMax ∧
  (calculateStatistics prices numSims).pMax ≤ 1 ∧
  ((prices.countP fun x => decide (x = listMin prices)) : ℚ) /
      (prices.length : ℚ) ≤ (calculateStatistics prices numSims).pMin ∧
  ((prices.countP fun x => decide (x = listMax prices)) : ℚ) /
      (prices.length : ℚ) ≤ (calculateStatistics prices numSims).pMax

/-! ## Helper lemmas -/

lemma priceAt_closed (lastPrice : ℝ) (mean vol : ℕ → ℝ) (z : ℕ → ℕ → ℝ)
    (s d : ℕ) :
    priceAt lastPrice mean vol z s d =
      lastPrice * ∏ i ∈ Finset.range (d + 1),
        stepReturn (mean i) (vol i) (z i s) := by
  induction d with
  | zero => simp [priceAt]
  | succ d ih =>
    rw [priceAt, ih, mul_assoc]
    conv_rhs => rw [Finset.prod_range_succ]

lemma simulatePaths_getD (lastPrice : ℝ) (mean vol : ℕ → ℝ) (z : ℕ → ℕ → ℝ)
    (numDays numSims d s : ℕ) (hd : d < numDays) (hs : s < numSims) :
    ((simulatePaths lastPrice mean vol z numDays numSims).getD d []).getD s 0 =
      priceAt lastPrice mean vol z s d := by
  have h1 : (simulatePaths lastPrice mean vol z numDays numSims).getD d [] =
      (List.range numSims).map fun t => priceAt lastPrice mean vol z t d := by
    rw [List.getD_eq_getElem?_getD]
    simp [simulatePaths, List.getElem?_map, List.getElem?_range, hd]
  rw [h1, List.getD_eq_getElem?_getD]
  simp [List.getElem?_map, List.getElem?_range, hs]

lemma foldl_min_mem (xs : List ℚ) (a : ℚ) :
    xs.foldl min a = a ∨ xs.foldl min a ∈ xs := by
  induction xs generalizing a with
  | nil => exact Or.inl rfl
  | cons b bs ih =>
    rcases ih (min a b) with h | h
    · rcases min_choice a b with h2 | h2
      · exact Or.inl (by rw [List.foldl_cons, h, h2])
      · exact Or.inr (by rw [List.foldl_cons, h, h2]; exact List.mem_cons_self b bs)
    · exact Or.inr (List.mem_cons_of_mem b h)

lemma foldl_max_mem (xs : List ℚ) (a : ℚ) :
    xs.foldl max a = a ∨ xs.foldl max a ∈ xs := by
  induction xs generalizing a with
  | nil => exact Or.inl rfl
  | cons b bs ih =>
    rcases ih (max a b) with h | h
    · rcases max_choice a b with h2 | h2
      · exact Or.inl (by rw [List.foldl_cons, h, h2])
      · exact Or.inr (by rw [List.foldl_cons, h, h2]; exact List.mem_cons_self b bs)
    · exact Or.inr (List.mem_cons_of_mem b h)

lemma listMin_mem (l : List ℚ) (h : l ≠ []) : listMin l ∈ l := by
  match l with
  | x :: xs =>
    rcases foldl_min_mem xs x with h1 | h1
    · rw [listMin, h1]; exact List.mem_cons_self x xs
    · exact List.mem_cons_of_mem x h1

lemma listMax_mem (l : List ℚ) (h : l ≠ []) : listMax l ∈ l := by
  match l with
  | x :: xs =>
    rcases foldl_max_mem xs x with h1 | h1
    · rw [listMax, h1]; exact List.mem_cons_self x xs
    · exact List.mem_cons_of_mem x h1

/-! ## Claim theorems -/

/-- Claim C1: for positive last_price, num_days ≥ 1, num_simulations ≥ 1 and
any shock matrix, the vectorized path simulation yields a matrix of shape
exactly num_days × num_simulations whose day-d path-s entry is last_price
times the cumulative product over days 0..d of
exp((mean - 0.5 vol^2) dt + vol sqrt(dt) z), and every price is strictly
positive. -/
theorem C1_simulatePaths_spec (lastPrice : ℝ) (mean vol : ℕ → ℝ)
    (z : ℕ → ℕ → ℝ) (numDays numSims : ℕ) (hd : 1 ≤ numDays)
    (hs : 1 ≤ numSims) (hp : 0 < lastPrice) :
    (simulatePaths lastPrice mean vol z numDays numSims).length = numDays ∧
    (∀ row ∈ simulatePaths lastPrice mean vol z numDays numSims,
      row.length = numSims) ∧
    (∀ d, d < numDays → ∀ s, s < numSims →
      ((simulatePaths lastPrice mean vol z numDays numSims).getD d []).getD s 0 =
        lastPrice * ∏ i ∈ Finset.range (d + 1),
          Real.exp ((mean i - 0.5 * vol i ^ 2) * dt +
            vol i * Real.sqrt dt * z i s)) ∧
    (∀ d, d < numDays → ∀ s, s < numSims →
      0 < ((simulatePaths lastPrice mean vol z numDays numSims).getD d []).getD
        s 0) := by
  refine ⟨by simp [simulatePaths], ?_, ?_, ?_⟩
  · intro row hrow
    simp only [simulatePaths, List.mem_map] at hrow
    obtain ⟨d, _, rfl⟩ := hrow
    simp
  · intro d hdlt s hslt
    rw [simulatePaths_getD lastPrice mean vol z numDays numSims d s hdlt hslt,
      priceAt_closed]
    simp [stepReturn]
  · intro d hdlt s hslt
    rw [simulatePaths_getD lastPrice mean vol z numDays numSims d s hdlt hslt,
      priceAt_closed]
    exact mul_pos hp (Finset.prod_pos fun i _ => Real.exp_pos _)

/-- Witness for C1: the hypotheses hold and the conclusion is realised at
last_price = 1 with one day, one path and zero drift, volatility and
shock. -/
theorem C1_simulatePaths_spec_witness :
    (1 ≤ 1 ∧ 0 < (1 : ℝ)) ∧
    ((simulatePaths 1 (fun _ => 0) (fun _ => 0) (fun _ _ => 0) 1 1).length = 1 ∧
     (∀ row ∈ simulatePaths 1 (fun _ => 0) (fun _ => 0) (fun _ _ => 0) 1 1,
       row.length = 1) ∧
     (∀ d, d < 1 → ∀ s, s < 1 →
       ((simulatePaths 1 (fun _ => 0) (fun _ => 0) (fun _ _ => 0) 1 1).getD d
         []).getD s 0 =
         1 * ∏ _i ∈ Finset.range (d + 1),
           Real.exp (((0 : ℝ) - 0.5 * (0 : ℝ) ^ 2) * dt +
             (0 : ℝ) * Real.sqrt dt * (0 : ℝ))) ∧
     (∀ d, d < 1 → ∀ s, s < 1 →
       0 < ((simulatePaths 1 (fun _ => 0) (fun _ => 0) (fun _ _ => 0) 1
         1).getD d []).getD s 0)) :=
  ⟨⟨le_refl 1, one_pos⟩,
    C1_simulatePaths_spec 1 (fun _ => 0) (fun _ => 0) (fun _ _ => 0) 1 1
      (le_refl 1) (le_refl 1) one_pos⟩


/-- Claim C2 counterexample: for the terminal-price vector [-1] the claimed
bound P(min) greater-or-equal fraction-of-exactly-minimum prices fails,
because a negative minimum makes min * 1.05 smaller than the minimum
itself.  P(min) is 0 while the exact-minimum fraction is 1. -/
theorem C2_counterexample :
    (calculateStatistics [(-1 : ℚ)] 1).pMin <
      ((([(-1 : ℚ)].countP fun x => decide (x = listMin [(-1 : ℚ)])) : ℚ) /
        (([(-1 : ℚ)].length : ℚ))) := by
  norm_num [calculateStatistics, listMin, List.countP, List.countP.go]

/-- Claim C2 (amended): for every non-empty vector of non-negative terminal
prices with num_simulations equal to its length, the extractor returns the
stated tail fractions, both lie in [0, 1] and each dominates the fraction
of exactly-extreme terminal prices. -/
theorem C2_statistics_spec (prices : List ℚ) (numSims : ℕ)
    (hne : prices ≠ []) (hlen : numSims = prices.length)
    (hpos : ∀ x ∈ prices, 0 ≤ x) :
    StatisticsSpecHolds prices numSims := by
  subst hlen
  have hlpos : 0 < (prices.length : ℚ) := by
    exact_mod_cast List.length_pos.mpr hne
  have hmin0 : 0 ≤ listMin prices := hpos _ (listMin_mem prices hne)
  have hmax0 : 0 ≤ listMax prices := hpos _ (listMax_mem prices hne)
  refine ⟨rfl, rfl, ?_, ?_, ?_, ?_, ?_, ?_⟩
  · exact div_nonneg (by positivity) (le_of_lt hlpos)
  · refine (div_le_one hlpos).mpr ?_
    exact_mod_cast List.countP_le_length _
  · exact div_nonneg (by positivity) (le_of_lt hlpos)
  · refine (div_le_one hlpos).mpr ?_
    exact_mod_cast List.countP_le_length _
  · refine (div_le_div_iff_of_pos_right hlpos).mpr ?_
    refine Nat.cast_le.mpr (List.countP_mono_left ?_)
    intro x hx hxe
    simp only [decide_eq_true_eq] at hxe ⊢
    rw [hxe]
    nlinarith [hmin0]
  · refine (div_le_div_iff_of_pos_right hlpos).mpr ?_
    refine Nat.cast_le.mpr (List.countP_mono_left ?_)
    intro x hx hxe
    simp only [decide_eq_true_eq, ge_iff_le] at hxe ⊢
    rw [hxe]
    nlinarith [hmax0]

/-- Witness for C2 at the price vector [1, 2] with num_simulations 2. -/
theorem C2_statistics_spec_witness :
    (([(1 : ℚ), 2] ≠ ([] : List ℚ)) ∧ 2 = ([(1 : ℚ), 2].length) ∧
      (∀ x ∈ [(1 : ℚ), 2], 0 ≤ x)) ∧
    StatisticsSpecHolds [(1 : ℚ), 2] 2 :=
  ⟨⟨by decide, rfl, by decide⟩,
    C2_statistics_spec [1, 2] 2 (by decide) rfl (by decide)⟩


lemma list_sum_map_div {α : Type} (l : List α) (f : α → ℚ) (c : ℚ) :
    (l.map fun e => f e / c).sum = (l.map f).sum / c := by
  induction l with
  | nil => simp
  | cons a tl ih => simp [ih, add_div]

lemma totalValue_pos (sd : List StockEntry) (hne : sd ≠ [])
    (hq : ∀ e ∈ sd, 0 < e.quantity) (hp : ∀ e ∈ sd, 0 < e.price) :
    0 < totalValue sd := by
  match sd, hne with
  | a :: tl, _ =>
    have ha : 0 < positionValue a :=
      mul_pos (hq a (List.mem_cons_self a tl)) (hp a (List.mem_cons_self a tl))
    have htl : 0 ≤ (tl.map positionValue).sum := by
      refine List.sum_nonneg ?_
      intro x hx
      obtain ⟨e, he, rfl⟩ := List.mem_map.mp hx
      exact le_of_lt (mul_pos (hq e (List.mem_cons_of_mem a he))
        (hp e (List.mem_cons_of_mem a he)))
    have : totalValue (a :: tl) = positionValue a + (tl.map positionValue).sum := by
      simp [totalValue]
    rw [this]
    linarith

/-- Claim C6: for every non-empty holding list with positive quantities and
positive fetched prices, the value weights sum to exactly 1, hence to 1
within the claimed 1e-9 tolerance, independently of holding count and
price scale. -/
theorem C6_weights_sum_one (sd : List StockEntry) (hne : sd ≠ [])
    (hq : ∀ e ∈ sd, 0 < e.quantity) (hp : ∀ e ∈ sd, 0 < e.price) :
    (portfolioWeights sd).sum = 1 ∧
    |(portfolioWeights sd).sum - 1| ≤ 1 / 1000000000 := by
  have htot : 0 < totalValue sd := totalValue_pos sd hne hq hp
  have h1 : (portfolioWeights sd).sum = 1 := by
    rw [portfolioWeights, list_sum_map_div]
    exact div_self (ne_of_gt htot)
  refine ⟨h1, ?_⟩
  rw [h1]
  norm_num

/-- Witness for C6 at a single holding of 10 shares priced 100. -/
theorem C6_weights_sum_one_witness :
    (([⟨"TCS", 10, 100, []⟩] : List StockEntry) ≠ [] ∧
      (∀ e ∈ ([⟨"TCS", 10, 100, []⟩] : List StockEntry), 0 < e.quantity) ∧
      (∀ e ∈ ([⟨"TCS", 10, 100, []⟩] : List StockEntry), 0 < e.price)) ∧
    (portfolioWeights [⟨"TCS", 10, 100, []⟩]).sum = 1 ∧
    |(portfolioWeights [⟨"TCS", 10, 100, []⟩]).sum - 1| ≤ 1 / 1000000000 :=
  ⟨⟨by decide, by decide, by decide⟩,
    C6_weights_sum_one [⟨"TCS", 10, 100, []⟩] (by decide) (by decide) (by decide)⟩

/-- Claim C8 counterexample: num_simulations = 100000 lies inside the
spec range [100, 100000] yet the simulation endpoints reject it (their
Query bound is le=10000), while the portfolio endpoint accepts it. -/
theorem C8_counterexample :
    simEndpointAccepts 100000 252 = false ∧
    100 ≤ 100000 ∧ 100000 ≤ 100000 ∧
    portfolioRequestAccepts 100000 252 (995 / 1000) = true := by
  refine ⟨by decide, by decide, by decide, ?_⟩
  norm_num [portfolioRequestAccepts]

/-- Claim C8 (amended): the boundary accepts a request exactly on the code
bounds: the simulation endpoints accept num_simulations in [100, 10000]
(not up to 100000) and num_days in [1, 1000]; the portfolio endpoint
accepts num_simulations in [1000, 100000], num_days in [1, 252] and
confidence_level in [0.90, 0.999]; everything outside is rejected before
entering the core. -/
theorem C8_boundary_spec (ns nd : ℕ) (cl : ℚ) :
    (simEndpointAccepts ns nd = true ↔
      (100 ≤ ns ∧ ns ≤ 10000 ∧ 1 ≤ nd ∧ nd ≤ 1000)) ∧
    (portfolioRequestAccepts ns nd cl = true ↔
      (1000 ≤ ns ∧ ns ≤ 100000 ∧ 1 ≤ nd ∧ nd ≤ 252 ∧
        9 / 10 ≤ cl ∧ cl ≤ 999 / 1000)) := by
  constructor <;>
    simp [simEndpointAccepts, portfolioRequestAccepts, and_assoc]


lemma lookup_none_iff {μ : Type} (cache : List (String × μ)) (key : String) :
    cache.lookup key = none ↔ key ∉ cache.map Prod.fst := by
  induction cache with
  | nil => simp
  | cons a tl ih =>
    by_cases hk : key = a.1
    · subst hk
      simp [List.lookup]
    · have hb : (key == a.1) = false := by
        simpa using hk
      simp [List.lookup, hb, ih, hk]

lemma runFits_count {μ : Type} (oracle : String → μ) (keys : List String)
    (st : FitState μ) :
    (keys.foldl (fun s k => (fitModel oracle k s).2) st).fitCount =
      st.fitCount + distinctNewCount (st.cache.map Prod.fst) keys := by
  induction keys generalizing st with
  | nil => simp [distinctNewCount]
  | cons k ks ih =>
    rw [List.foldl_cons]
    rcases hcase : st.cache.lookup k with _ | m
    · have hnot : k ∉ st.cache.map Prod.fst := (lookup_none_iff _ _).mp hcase
      have hstep : (fitModel oracle k st).2 =
          ⟨(k, oracle k) :: st.cache, st.fitCount + 1⟩ := by
        simp [fitModel, hcase]
      rw [hstep, ih]
      simp [distinctNewCount, hnot]
      omega
    · have hmem : k ∈ st.cache.map Prod.fst := by
        by_contra hno
        rw [← lookup_none_iff st.cache k] at hno
        rw [hcase] at hno
        cases hno
      have hstep : (fitModel oracle k st).2 = st := by
        simp [fitModel, hcase]
      rw [hstep, ih]
      simp [distinctNewCount, hmem]

/-- Claim C9: a cached (volatility family, distribution, leverage-order)
combination is returned as the identical stored object with no state change
and no new optimizer run, and one batch over all 18 parametric catalogue
entries runs the optimizer for only 9 distinct models, within the claimed
bound of 12. -/
theorem C9_fit_cache_spec (μ : Type) (oracle : String → μ) (key : String)
    (st : FitState μ) (m : μ) (h : st.cache.lookup key = some m) :
    fitModel oracle key st = (m, st) ∧
    (runBatchFits oracle).fitCount = 9 ∧ (runBatchFits oracle).fitCount ≤ 12 := by
  have hcount : (runBatchFits oracle).fitCount = 9 := by
    rw [runBatchFits, runFits_count]
    show 0 + distinctNewCount [] batchFitKeys = 9
    decide
  refine ⟨?_, hcount, by rw [hcount]; decide⟩
  simp [fitModel, h]

/-- Witness for C9: a state whose cache already holds the GARCH-normal fit
returns the stored object 7 unchanged. -/
theorem C9_fit_cache_spec_witness :
    ((⟨[(fitKey ("GARCH") ("normal") 0, 7)], 5⟩ : FitState ℕ).cache.lookup
      (fitKey ("GARCH") ("normal") 0) = some 7) ∧
    (fitModel (fun _ => 0) (fitKey ("GARCH") ("normal") 0)
        (⟨[(fitKey ("GARCH") ("normal") 0, 7)], 5⟩ : FitState ℕ) =
      (7, ⟨[(fitKey ("GARCH") ("normal") 0, 7)], 5⟩) ∧
    (runBatchFits (fun _ => (0 : ℕ))).fitCount = 9 ∧
    (runBatchFits (fun _ => (0 : ℕ))).fitCount ≤ 12) :=
  ⟨by decide,
    C9_fit_cache_spec ℕ (fun _ => 0) (fitKey ("GARCH") ("normal") 0)
      ⟨[(fitKey ("GARCH") ("normal") 0, 7)], 5⟩ 7 (by decide)⟩


lemma gather_map_fst (order : List String)
    (outcome : String → Except String Stats) :
    (gatherResults order outcome).map Prod.fst = order := by
  induction order with
  | nil => rfl
  | cons a tl ih => simpa [gatherResults] using ih

lemma lookup_gather_mem (order : List String)
    (outcome : String → Except String Stats) (n : String) (hmem : n ∈ order) :
    (gatherResults order outcome).lookup n = some (toOutcome (outcome n)) := by
  induction order with
  | nil => cases hmem
  | cons a tl ih =>
    by_cases hna : n = a
    · subst hna
      simp [gatherResults, List.lookup]
    · have hb : (n == a) = false := by simpa using hna
      have htl : n ∈ tl := by
        rcases List.mem_cons.mp hmem with h | h
        · exact absurd h hna
        · exact h
      simpa [gatherResults, List.lookup, hb] using ih htl

lemma lookup_gather_not_mem (order : List String)
    (outcome : String → Except String Stats) (n : String) (hmem : n ∉ order) :
    (gatherResults order outcome).lookup n = none := by
  induction order with
  | nil => rfl
  | cons a tl ih =>
    have hna : n ≠ a := fun h => hmem (h ▸ List.mem_cons_self a tl)
    have hb : (n == a) = false := by simpa using hna
    have htl : n ∉ tl := fun h => hmem (List.mem_cons_of_mem a h)
    simpa [gatherResults, List.lookup, hb] using ih htl

/-- Claim C3: for any completion order of the 22 concurrent tasks, the
batch result map has exactly the catalogue names as keys, a failing task
contributes the error-shaped value carrying its exception message under its
own name, every other name keeps the value of its own task outcome
(so siblings and the batch are unaffected by one failure), and the map does
not depend on the completion order. -/
theorem C3_batch_isolation_spec (order : List String)
    (outcome outcome2 : String → Except String Stats) (failing : String)
    (hperm : order.Perm catalogNames)
    (hagree : ∀ n, n ≠ failing → outcome n = outcome2 n) :
    (((gatherResults order outcome).map Prod.fst).Perm catalogNames) ∧
    (∀ n ∈ catalogNames,
      (gatherResults order outcome).lookup n = some (toOutcome (outcome n))) ∧
    (∀ n, n ∉ catalogNames → (gatherResults order outcome).lookup n = none) ∧
    (∀ n ∈ catalogNames, ∀ e, outcome n = Except.error e →
      (gatherResults order outcome).lookup n = some (SimOutcome.err e)) ∧
    (∀ order2, order2.Perm catalogNames → ∀ n, n ≠ failing →
      (gatherResults order outcome).lookup n =
        (gatherResults order2 outcome2).lookup n) := by
  have hkeys : (gatherResults order outcome).map Prod.fst = order :=
    gather_map_fst order outcome
  refine ⟨by rw [hkeys]; exact hperm, ?_, ?_, ?_, ?_⟩
  · intro n hn
    exact lookup_gather_mem order outcome n (hperm.mem_iff.mpr hn)
  · intro n hn
    exact lookup_gather_not_mem order outcome n
      (fun h => hn (hperm.mem_iff.mp h))
  · intro n hn e he
    rw [lookup_gather_mem order outcome n (hperm.mem_iff.mpr hn), he]
    rfl
  · intro order2 hperm2 n hn
    by_cases hcat : n ∈ catalogNames
    · rw [lookup_gather_mem order outcome n (hperm.mem_iff.mpr hcat),
        lookup_gather_mem order2 outcome2 n (hperm2.mem_iff.mpr hcat),
        hagree n hn]
    · rw [lookup_gather_not_mem order outcome n
        (fun h => hcat (hperm.mem_iff.mp h)),
        lookup_gather_not_mem order2 outcome2 n
        (fun h => hcat (hperm2.mem_iff.mp h))]

/-- Witness for C3: the catalogue order itself, with every task failing
with message boom; the distinguished entry is GARCH-N. -/
theorem C3_batch_isolation_spec_witness :
    (List.Perm catalogNames catalogNames ∧
      (∀ n : String, n ≠ ("GARCH-N") →
        (Except.error ("boom") : Except String Stats) = Except.error ("boom"))) ∧
    ((((gatherResults catalogNames fun _ => Except.error ("boom")).map
        Prod.fst).Perm catalogNames) ∧
     (∀ n ∈ catalogNames,
       (gatherResults catalogNames fun _ => Except.error ("boom")).lookup n =
         some (toOutcome (Except.error ("boom")))) ∧
     (∀ n, n ∉ catalogNames →
       (gatherResults catalogNames fun _ => Except.error ("boom")).lookup n =
         none) ∧
     (∀ n ∈ catalogNames, ∀ e,
       (Except.error ("boom") : Except String Stats) = Except.error e →
       (gatherResults catalogNames fun _ => Except.error ("boom")).lookup n =
         some (SimOutcome.err e)) ∧
     (∀ order2, order2.Perm catalogNames → ∀ n, n ≠ ("GARCH-N") →
       (gatherResults catalogNames fun _ => Except.error ("boom")).lookup n =
         (gatherResults order2 fun _ => Except.error ("boom")).lookup n)) :=
  ⟨⟨List.Perm.refl catalogNames, fun _ _ => rfl⟩,
    C3_batch_isolation_spec catalogNames (fun _ => Except.error ("boom"))
      (fun _ => Except.error ("boom")) ("GARCH-N")
      (List.Perm.refl catalogNames) (fun _ _ => rfl)⟩


/-- Claim C4 counterexample: for the index symbol NIFTY50 (data available
under the mapped Yahoo symbol, no suffix ticker) the optimized batch
computes an EGARCH-GED result while the non-optimized path stores the
error-shaped no-data value for EGARCH-GED, because the standalone
EGARCH-GED service fetches only via the NSE/BSE suffixes; the two result
maps are therefore not equal. -/
theorem C4_counterexample :
    (runAllOptimizedMap counterEnvIndex constOracle ("NIFTY50")).map
        (fun m => m ("EGARCH-GED")) =
      Except.ok (some (SimOutcome.ok constStats)) ∧
    runAllStandalone counterEnvIndex constOracle ("NIFTY50") ("EGARCH-GED") =
      some (SimOutcome.err (noDataMsg ("NIFTY50"))) ∧
    some (SimOutcome.ok constStats) ≠
      some (SimOutcome.err (noDataMsg ("NIFTY50"))) :=
  ⟨rfl, rfl, by decide⟩

/-- Claim C4 (amended): for every symbol that is not an index alias and
resolves through the NSE/BSE suffix fallback, the optimized batch (shared
single fetch) and the non-optimized per-model path produce equal result
maps for all 22 catalogue entries given the same environment and random
stream; for index symbols the EGARCH-GED entry diverges as the
counterexample shows. -/
theorem C4_optimized_standalone_agree (env : FetchEnv) (M : ModelOracle)
    (symbol : String) (h : History) (hidx : isIndex symbol = false)
    (hfetch : fetchSuffixOnly env symbol = Except.ok h) :
    runAllOptimizedMap env M symbol =
      Except.ok (runAllStandalone env M symbol) := by
  have hia : fetchIndexAware env symbol = Except.ok h := by
    simp [fetchIndexAware, hidx, hfetch]
  rw [runAllOptimizedMap, hia]
  refine congrArg Except.ok ?_
  funext name
  cases hso : standaloneUsesSuffixOnly name <;>
    simp [runAllStandalone, standaloneFetch, runEntryOutcome, hso, hia, hfetch]

/-- Witness for C4 at the plain stock symbol TCS with data under TCS.NS. -/
theorem C4_optimized_standalone_agree_witness :
    (isIndex ("TCS") = false ∧
      fetchSuffixOnly counterEnvStock ("TCS") = Except.ok [100]) ∧
    runAllOptimizedMap counterEnvStock constOracle ("TCS") =
      Except.ok (runAllStandalone counterEnvStock constOracle ("TCS")) :=
  ⟨⟨by decide, rfl⟩,
    C4_optimized_standalone_agree counterEnvStock constOracle ("TCS") [100]
      (by decide) rfl⟩

lemma collect_error_of_failure (fetch : String → Except String (ℚ × List ℚ))
    (order : List PHolding)
    (hfail : ∃ h ∈ order, ∃ e, fetch h.symbol = Except.error e) :
    ∃ h ∈ order, ∃ e, fetch h.symbol = Except.error e ∧
      collectStockData fetch order = Except.error (fetchErrorMsg h.symbol e) := by
  induction order with
  | nil =>
    obtain ⟨h, hm, _⟩ := hfail
    cases hm
  | cons a tl ih =>
    rcases hfa : fetch a.symbol with e | d
    · exact ⟨a, List.mem_cons_self a tl, e, hfa, by simp [collectStockData, hfa]⟩
    · have htl : ∃ h ∈ tl, ∃ e, fetch h.symbol = Except.error e := by
        obtain ⟨h, hm, e, he⟩ := hfail
        rcases List.mem_cons.mp hm with rfl | hmem
        · rw [hfa] at he
          cases he
        · exact ⟨h, hmem, e, he⟩
      obtain ⟨h2, hm2, e2, he2, hcol⟩ := ih htl
      exact ⟨h2, List.mem_cons_of_mem a hm2, e2, he2,
        by simp [collectStockData, hfa, hcol]⟩

/-- Claim C5: if the fetch of any holding fails then, for every completion
order of the concurrent fetches, calculate_portfolio_metrics raises an
error whose message names a failing symbol, before any VaR is computed, and
never returns a (partial) result. -/
theorem C5_portfolio_fetch_failure
    (fetch : String → Except String (ℚ × List ℚ))
    (holdings order : List PHolding) (cl z sd : ℚ) (shocks : List ℚ)
    (hperm : order.Perm holdings)
    (hfail : ∃ h ∈ holdings, ∃ e, fetch h.symbol = Except.error e) :
    ∃ h ∈ holdings, ∃ e, fetch h.symbol = Except.error e ∧
      calculatePortfolioMetrics fetch holdings order cl z sd shocks =
        Except.error (fetchErrorMsg h.symbol e) ∧
      ∀ r, calculatePortfolioMetrics fetch holdings order cl z sd shocks ≠
        Except.ok r := by
  have hne : holdings ≠ [] := by
    obtain ⟨h, hm, _⟩ := hfail
    exact List.ne_nil_of_mem hm
  have hfail2 : ∃ h ∈ order, ∃ e, fetch h.symbol = Except.error e := by
    obtain ⟨h, hm, e, he⟩ := hfail
    exact ⟨h, hperm.mem_iff.mpr hm, e, he⟩
  obtain ⟨h, hm, e, he, hcol⟩ := collect_error_of_failure fetch order hfail2
  have heq : calculatePortfolioMetrics fetch holdings order cl z sd shocks =
      Except.error (fetchErrorMsg h.symbol e) := by
    simp [calculatePortfolioMetrics, hne, hcol]
  refine ⟨h, hperm.mem_iff.mp hm, e, he, heq, ?_⟩
  intro r hr
  rw [heq] at hr
  cases hr

/-- Witness for C5: one holding whose fetch always fails with message
no data. -/
theorem C5_portfolio_fetch_failure_witness :
    (List.Perm [(⟨"TCS", 1⟩ : PHolding)] [⟨"TCS", 1⟩] ∧
      ∃ h ∈ [(⟨"TCS", 1⟩ : PHolding)], ∃ e,
        (fun _ : String =>
          (Except.error ("no data") : Except String (ℚ × List ℚ))) h.symbol =
          Except.error e) ∧
    ∃ h ∈ [(⟨"TCS", 1⟩ : PHolding)], ∃ e,
      (fun _ : String =>
        (Except.error ("no data") : Except String (ℚ × List ℚ))) h.symbol =
        Except.error e ∧
      calculatePortfolioMetrics
          (fun _ => Except.error ("no data")) [⟨"TCS", 1⟩] [⟨"TCS", 1⟩]
          (995 / 1000) (-2) 1 [0] =
        Except.error (fetchErrorMsg h.symbol e) ∧
      ∀ r, calculatePortfolioMetrics
          (fun _ => Except.error ("no data")) [⟨"TCS", 1⟩] [⟨"TCS", 1⟩]
          (995 / 1000) (-2) 1 [0] ≠ Except.ok r :=
  ⟨⟨List.Perm.refl _, ⟨⟨"TCS", 1⟩, by simp, "no data", rfl⟩⟩,
    C5_portfolio_fetch_failure (fun _ => Except.error ("no data"))
      [⟨"TCS", 1⟩] [⟨"TCS", 1⟩] (995 / 1000) (-2) 1 [0]
      (List.Perm.refl _) ⟨⟨"TCS", 1⟩, by simp, "no data", rfl⟩⟩


lemma sum_replicate_q (n : ℕ) (a : ℚ) : (List.replicate n a).sum = n * a := by
  rw [List.sum_replicate, nsmul_eq_mul]

lemma sampleMean_replicate (n : ℕ) (hn : n ≠ 0) (a : ℚ) :
    sampleMean (List.replicate n a) = a := by
  rw [sampleMean, sum_replicate_q, List.length_replicate]
  exact mul_div_cancel_left₀ a (Nat.cast_ne_zero.mpr hn)

lemma sampleVar_replicate (n : ℕ) (a : ℚ) (hn : n ≠ 0) :
    sampleVarDdof1 (List.replicate n a) = 0 := by
  rw [sampleVarDdof1, sampleMean_replicate n hn a, List.map_replicate]
  simp [sum_replicate_q]

lemma orderedInsert_self_replicate (n : ℕ) (a : ℚ) :
    List.orderedInsert (fun x y => x ≤ y) a (List.replicate n a) =
      List.replicate (n + 1) a := by
  cases n with
  | zero => rfl
  | succ m => simp [List.replicate_succ, List.orderedInsert]

lemma sortedReturns_replicate (n : ℕ) (a : ℚ) :
    sortedReturns (List.replicate n a) = List.replicate n a := by
  induction n with
  | zero => rfl
  | succ m ih =>
    rw [List.replicate_succ, sortedReturns, List.insertionSort]
    rw [sortedReturns] at ih
    rw [ih]
    exact orderedInsert_self_replicate m a

lemma getD_replicate_of_lt (n i : ℕ) (h : i < n) {a d : ℚ} :
    (List.replicate n a).getD i d = a := by
  rw [List.getD_eq_getElem?_getD, List.getElem?_replicate]
  simp [h]

lemma percentile_singleton (x q : ℚ) : percentile [x] q = x := by
  simp [percentile, sortedReturns, List.insertionSort, List.orderedInsert]

lemma list_sum_nonpos (l : List ℚ) (h : ∀ x ∈ l, x ≤ 0) : l.sum ≤ 0 := by
  induction l with
  | nil => simp
  | cons a tl ih =>
    have ha := h a (List.mem_cons_self a tl)
    have htl := ih fun x hx => h x (List.mem_cons_of_mem a hx)
    simp only [List.sum_cons]
    linarith

lemma varIndex_lt (cl : ℚ) (n : ℕ) (hn : 0 < n) (hcl1 : 0 < cl)
    (hcl2 : cl < 1) : varIndex cl n < n := by
  have hnq : (0 : ℚ) < (n : ℚ) := by exact_mod_cast hn
  have hlt : (1 - cl) * (n : ℚ) < (n : ℚ) := by nlinarith
  have hfl : Int.floor ((1 - cl) * (n : ℚ)) < (n : ℤ) :=
    Int.floor_lt.mpr (by exact_mod_cast hlt)
  have hfl0 : 0 ≤ Int.floor ((1 - cl) * (n : ℚ)) :=
    Int.floor_nonneg.mpr (by nlinarith)
  rw [varIndex]
  omega

/-- Claim C10: under the aggregator preconditions (at least 100 aligned
observations and confidence level in (1/2, 1)) the historical-VaR index is
always inside the sorted array and the expected-shortfall average ranges
over a non-empty set, because the return at the VaR index satisfies the
threshold condition itself. -/
theorem C10_historical_var_safe (returns : List ℚ) (cl : ℚ)
    (hlen : 100 ≤ returns.length) (hcl1 : 1 / 2 < cl) (hcl2 : cl < 1) :
    varIndex cl returns.length < returns.length ∧
    0 < (returns.filter fun x => decide (x ≤
      (sortedReturns returns).getD (varIndex cl returns.length) 0)).length := by
  have hn : 0 < returns.length := lt_of_lt_of_le (by norm_num) hlen
  have hidx : varIndex cl returns.length < returns.length :=
    varIndex_lt cl returns.length hn (by linarith) hcl2
  refine ⟨hidx, ?_⟩
  have hslen : (sortedReturns returns).length = returns.length :=
    List.length_insertionSort (fun a b => a ≤ b) returns
  have hidx2 : varIndex cl returns.length < (sortedReturns returns).length := by
    rw [hslen]
    exact hidx
  have hget : (sortedReturns returns).getD (varIndex cl returns.length) 0 =
      (sortedReturns returns)[varIndex cl returns.length] := by
    rw [List.getD_eq_getElem?_getD, List.getElem?_eq_getElem hidx2]
    rfl
  have hmem : (sortedReturns returns)[varIndex cl returns.length] ∈ returns :=
    (List.mem_insertionSort (fun a b => a ≤ b)).mp (List.getElem_mem hidx2)
  refine List.length_pos.mpr
    (List.ne_nil_of_mem (List.mem_filter.mpr ⟨hmem, ?_⟩))
  rw [hget]
  simp

/-- Witness for C10 at 100 observations of +1 percent and confidence level
0.995. -/
theorem C10_historical_var_safe_witness :
    (100 ≤ (List.replicate 100 (1 / 100 : ℚ)).length ∧
      (1 / 2 : ℚ) < 995 / 1000 ∧ (995 / 1000 : ℚ) < 1) ∧
    (varIndex (995 / 1000) (List.replicate 100 (1 / 100 : ℚ)).length <
      (List.replicate 100 (1 / 100 : ℚ)).length ∧
    0 < ((List.replicate 100 (1 / 100 : ℚ)).filter fun x => decide (x ≤
      (sortedReturns (List.replicate 100 (1 / 100 : ℚ))).getD
        (varIndex (995 / 1000)
          (List.replicate 100 (1 / 100 : ℚ)).length) 0)).length) :=
  ⟨⟨by simp, by norm_num, by norm_num⟩,
    C10_historical_var_safe (List.replicate 100 (1 / 100)) (995 / 1000)
      (by simp) (by norm_num) (by norm_num)⟩

lemma interp_nonpos (a b f : ℚ) (ha : a ≤ 0) (hb : b ≤ 0) (hf0 : 0 ≤ f)
    (hf1 : f ≤ 1) : a + f * (b - a) ≤ 0 := by nlinarith

lemma percentile_nonpos (l : List ℚ) (q : ℚ) (hne : l ≠ []) (hq : 0 ≤ q)
    (hall : ∀ x ∈ l, x ≤ 0) : percentile l q ≤ 0 := by
  have hsort_all : ∀ x ∈ sortedReturns l, x ≤ 0 := fun x hx =>
    hall x ((List.mem_insertionSort (fun a b => a ≤ b)).mp hx)
  have hn1 : 1 ≤ l.length := List.length_pos.mpr hne
  have hh0 : 0 ≤ q / 100 * ((l.length : ℚ) - 1) := by
    have h1 : (1 : ℚ) ≤ (l.length : ℚ) := by exact_mod_cast hn1
    have h2 : (0 : ℚ) ≤ q / 100 := by positivity
    nlinarith
  have hfl0 : 0 ≤ Int.floor (q / 100 * ((l.length : ℚ) - 1)) :=
    Int.floor_nonneg.mpr hh0
  have hcast : (((Int.floor (q / 100 * ((l.length : ℚ) - 1))).toNat : ℚ)) =
      ((Int.floor (q / 100 * ((l.length : ℚ) - 1)) : ℤ) : ℚ) := by
    exact_mod_cast congrArg (fun z : ℤ => (z : ℚ)) (Int.toNat_of_nonneg hfl0)
  have hfrac0 : 0 ≤ q / 100 * ((l.length : ℚ) - 1) -
      ((Int.floor (q / 100 * ((l.length : ℚ) - 1))).toNat : ℚ) := by
    rw [hcast]
    exact sub_nonneg.mpr (Int.floor_le _)
  have hfrac1 : q / 100 * ((l.length : ℚ) - 1) -
      ((Int.floor (q / 100 * ((l.length : ℚ) - 1))).toNat : ℚ) ≤ 1 := by
    rw [hcast]
    have := Int.lt_floor_add_one (q / 100 * ((l.length : ℚ) - 1))
    linarith
  have hgetD : ∀ (j : ℕ) (d : ℚ), d ≤ 0 → (sortedReturns l).getD j d ≤ 0 := by
    intro j d hd
    rcases lt_or_ge j (sortedReturns l).length with hlt | hge
    · rw [List.getD_eq_getElem?_getD, List.getElem?_eq_getElem hlt]
      exact hsort_all _ (List.getElem_mem hlt)
    · rw [List.getD_eq_getElem?_getD, List.getElem?_eq_none hge]
      simpa using hd
  have ha : (sortedReturns l).getD
      ((Int.floor (q / 100 * ((l.length : ℚ) - 1))).toNat) 0 ≤ 0 :=
    hgetD _ 0 le_rfl
  have hb : (sortedReturns l).getD
      ((Int.floor (q / 100 * ((l.length : ℚ) - 1))).toNat + 1)
      ((sortedReturns l).getD
        ((Int.floor (q / 100 * ((l.length : ℚ) - 1))).toNat) 0) ≤ 0 :=
    hgetD _ _ ha
  exact interp_nonpos _ _ _ ha hb hfrac0 hfrac1


/-- Claim C7 counterexample: a uniformly positive portfolio return series
(100 observations of +1 percent) with its actual mean, zero sample standard
deviation, a negative normal quantile and positive horizon scaling yields
strictly positive values for all four VaR estimators, refuting the claim
that confidence_level above one half alone forces them non-positive. -/
theorem C7_counterexample :
    100 ≤ (List.replicate 100 (1 / 100 : ℚ)).length ∧
    (1 / 2 : ℚ) < 995 / 1000 ∧ (995 / 1000 : ℚ) < 1 ∧
    (-2577 / 1000 : ℚ) < 0 ∧ (0 : ℚ) < 1587 / 100 ∧
    (0 : ℚ) ^ 2 = sampleVarDdof1 (List.replicate 100 (1 / 100 : ℚ)) ∧
    0 < varParametric 100 (sampleMean (List.replicate 100 (1 / 100 : ℚ))) 0
      (-2577 / 1000) (1587 / 100) ∧
    0 < varHistorical 100 (List.replicate 100 (1 / 100 : ℚ)) (995 / 1000)
      (1587 / 100) ∧
    0 < varMonteCarlo 100 (sampleMean (List.replicate 100 (1 / 100 : ℚ))) 0
      (1587 / 100) [0] (995 / 1000) ∧
    0 < expectedShortfall 100 (List.replicate 100 (1 / 100 : ℚ)) (995 / 1000)
      (1587 / 100) := by
  have hmean : sampleMean (List.replicate 100 (1 / 100 : ℚ)) = 1 / 100 :=
    sampleMean_replicate 100 (by norm_num) (1 / 100)
  have hvi : varIndex (995 / 1000) 100 = 0 := by
    rw [varIndex]
    norm_num
  refine ⟨by simp, by norm_num, by norm_num, by norm_num, by norm_num, ?_,
    ?_, ?_, ?_, ?_⟩
  · rw [sampleVar_replicate 100 (1 / 100) (by norm_num)]
    norm_num
  · rw [hmean, varParametric]
    norm_num
  · rw [varHistorical, List.length_replicate, hvi, sortedReturns_replicate,
      getD_replicate_of_lt 100 0 (by norm_num)]
    norm_num
  · rw [varMonteCarlo]
    simp only [List.map_cons, List.map_nil]
    rw [percentile_singleton, hmean]
    norm_num
  · rw [expectedShortfall, List.length_replicate, hvi, sortedReturns_replicate,
      getD_replicate_of_lt 100 0 (by norm_num)]
    simp only [List.filter_replicate]
    norm_num [sum_replicate_q]

/-- Claim C7 (amended): each of the four VaR estimates is non-positive
whenever its own lower-tail statistic is non-positive: mean + z * sigma for
the variance-covariance estimate, the sorted return at the VaR index for
the historical and expected-shortfall estimates, and all simulated draws
for the Monte-Carlo estimate; confidence_level above one half alone does
not force this, as the counterexample with a uniformly positive return
series shows. -/
theorem C7_var_nonpositive (total mu sigma z sd cl : ℚ)
    (returns shocks : List ℚ)
    (hlen : 100 ≤ returns.length) (hcl1 : 1 / 2 < cl) (hcl2 : cl < 1)
    (htot : 0 < total) (hz : z < 0) (hsd : 0 < sd) (hsig : 0 ≤ sigma)
    (hsigv : sigma ^ 2 = sampleVarDdof1 returns)
    (hmu : mu = sampleMean returns)
    (hshocks : shocks ≠ [])
    (hpar : mu + z * sigma ≤ 0)
    (hthr : (sortedReturns returns).getD (varIndex cl returns.length) 0 ≤ 0)
    (hmc : ∀ g ∈ shocks, mu + sigma * g ≤ 0) :
    varParametric total mu sigma z sd ≤ 0 ∧
    varHistorical total returns cl sd ≤ 0 ∧
    varMonteCarlo total mu sigma sd shocks cl ≤ 0 ∧
    expectedShortfall total returns cl sd ≤ 0 := by
  refine ⟨?_, ?_, ?_, ?_⟩
  · rw [varParametric]
    exact mul_nonpos_of_nonpos_of_nonneg
      (mul_nonpos_of_nonneg_of_nonpos htot.le hpar) hsd.le
  · rw [varHistorical]
    exact mul_nonpos_of_nonpos_of_nonneg
      (mul_nonpos_of_nonneg_of_nonpos htot.le hthr) hsd.le
  · rw [varMonteCarlo]
    have hmapne : shocks.map (fun g => (mu + sigma * g) * sd) ≠ [] := by
      simpa using hshocks
    have hdraws : ∀ x ∈ shocks.map (fun g => (mu + sigma * g) * sd),
        x ≤ 0 := by
      intro x hx
      obtain ⟨g, hg, rfl⟩ := List.mem_map.mp hx
      exact mul_nonpos_of_nonpos_of_nonneg (hmc g hg) hsd.le
    have hq : (0 : ℚ) ≤ (1 - cl) * 100 := by nlinarith
    exact mul_nonpos_of_nonneg_of_nonpos htot.le
      (percentile_nonpos _ _ hmapne hq hdraws)
  · rw [expectedShortfall]
    have htail : ∀ x ∈ returns.filter fun x => decide (x ≤
        (sortedReturns returns).getD (varIndex cl returns.length) 0),
        x ≤ 0 := by
      intro x hx
      have hx2 := (List.mem_filter.mp hx).2
      simp only [decide_eq_true_eq] at hx2
      exact le_trans hx2 hthr
    have hsum : (returns.filter fun x => decide (x ≤
        (sortedReturns returns).getD (varIndex cl returns.length) 0)).sum ≤
        0 := list_sum_nonpos _ htail
    have hdiv : (returns.filter fun x => decide (x ≤
        (sortedReturns returns).getD (varIndex cl returns.length) 0)).sum /
        (((returns.filter fun x => decide (x ≤
          (sortedReturns returns).getD
            (varIndex cl returns.length) 0)).length : ℚ)) ≤ 0 :=
      div_nonpos_iff.mpr (Or.inr ⟨hsum, Nat.cast_nonneg _⟩)
    exact mul_nonpos_of_nonpos_of_nonneg
      (mul_nonpos_of_nonneg_of_nonpos htot.le hdiv) hsd.le

/-- Witness for C7 at 100 observations of -1 percent, zero sample standard
deviation, quantile -2.577, horizon scaling 15.87 and a single zero
shock. -/
theorem C7_var_nonpositive_witness :
    (100 ≤ (List.replicate 100 (-1 / 100 : ℚ)).length ∧
      (1 / 2 : ℚ) < 995 / 1000 ∧ (995 / 1000 : ℚ) < 1 ∧
      (0 : ℚ) < 100 ∧ (-2577 / 1000 : ℚ) < 0 ∧ (0 : ℚ) < 1587 / 100 ∧
      (0 : ℚ) ≤ 0 ∧
      (0 : ℚ) ^ 2 = sampleVarDdof1 (List.replicate 100 (-1 / 100 : ℚ)) ∧
      (-1 / 100 : ℚ) = sampleMean (List.replicate 100 (-1 / 100 : ℚ)) ∧
      ([(0 : ℚ)] ≠ []) ∧
      (-1 / 100 : ℚ) + (-2577 / 1000) * 0 ≤ 0 ∧
      (sortedReturns (List.replicate 100 (-1 / 100 : ℚ))).getD
        (varIndex (995 / 1000)
          (List.replicate 100 (-1 / 100 : ℚ)).length) 0 ≤ 0 ∧
      (∀ g ∈ [(0 : ℚ)], (-1 / 100 : ℚ) + 0 * g ≤ 0)) ∧
    (varParametric 100 (-1 / 100) 0 (-2577 / 1000) (1587 / 100) ≤ 0 ∧
     varHistorical 100 (List.replicate 100 (-1 / 100 : ℚ)) (995 / 1000)
       (1587 / 100) ≤ 0 ∧
     varMonteCarlo 100 (-1 / 100) 0 (1587 / 100) [0] (995 / 1000) ≤ 0 ∧
     expectedShortfall 100 (List.replicate 100 (-1 / 100 : ℚ)) (995 / 1000)
       (1587 / 100) ≤ 0) :=
  ⟨⟨by simp, by norm_num, by norm_num, by norm_num, by norm_num, by norm_num,
     le_rfl,
     by rw [sampleVar_replicate 100 (-1 / 100) (by norm_num)]; norm_num,
     (sampleMean_replicate 100 (by norm_num) (-1 / 100)).symm,
     by simp,
     by norm_num,
     by
       rw [List.length_replicate, sortedReturns_replicate]
       have hvi : varIndex (995 / 1000) 100 = 0 := by
         rw [varIndex]
         norm_num
       rw [hvi, getD_replicate_of_lt 100 0 (by norm_num)]
       norm_num,
     by
       intro g hg
       norm_num⟩,
    C7_var_nonpositive 100 (-1 / 100) 0 (-2577 / 1000) (1587 / 100)
      (995 / 1000) (List.replicate 100 (-1 / 100)) [0]
      (by simp) (by norm_num) (by norm_num) (by norm_num) (by norm_num)
      (by norm_num) le_rfl
      (by rw [sampleVar_replicate 100 (-1 / 100) (by norm_num)]; norm_num)
      ((sampleMean_replicate 100 (by norm_num) (-1 / 100)).symm)
      (by simp)
      (by norm_num)
      (by
        rw [List.length_replicate, sortedReturns_replicate]
        have hvi : varIndex (995 / 1000) 100 = 0 := by
          rw [varIndex]
          norm_num
        rw [hvi, getD_replicate_of_lt 100 0 (by norm_num)]
        norm_num)
      (by
        intro g hg
        norm_num)⟩

end Varlytics
